import Mathlib

/-!
Verification of the AnimMUF pipeline (src/animmuf.py) against its
natural-language specification.

The script is embedded shallowly: the filesystem is an association list
from paths to contents, HTTP responses and per-image download outcomes
are explicit data, and each Python function that the claims mention is
translated into a Lean function over that state.  Instrumentation that
the Python code does not return (the list of filesystem events a call
performs, the list of manifest entries a loop attempted, the number of
`urlretrieve` calls) is carried alongside the translated return value so
that the claims about side effects can be stated.
-/

namespace AnimMUF

/-- Split a character list at every occurrence of `c` (kernel-computable
model of splitting a path string on a separator). -/
def splitOnChar (c : Char) : List Char → List (List Char)
  | [] => [[]]
  | x :: xs =>
    let r := splitOnChar c xs
    if x = c then [] :: r
    else
      match r with
      | [] => [[x]]
      | y :: ys => (x :: y) :: ys

/-- Join character-list pieces with `.` between them. -/
def joinDot : List (List Char) → List Char
  | [] => []
  | [x] => x
  | x :: xs => x ++ '.' :: joinDot xs

/-- `pathlib.Path(p).name`: the last `/`-separated component of a path. -/
def pathName (p : String) : String :=
  ⟨(splitOnChar '/' p.data).getLastD []⟩

/-- `filename.with_suffix(".etag")` (animmuf.py line 84): replace the last
dot-suffix with `.etag`, or append `.etag` when the path has no suffix. -/
def withSuffixEtag (p : String) : String :=
  let parts := splitOnChar '.' p.data
  if parts.length ≤ 1 then p ++ ".etag"
  else ⟨joinDot parts.dropLast⟩ ++ ".etag"

/-- A flat filesystem: an association list from paths to file contents.
The first binding for a path wins. -/
structure FS where
  files : List (String × String)
deriving Repr, DecidableEq

/-- Content of the file at `p`, if it exists. -/
def FS.read? (fs : FS) (p : String) : Option String :=
  (fs.files.find? (fun e => e.1 == p)).map (fun e => e.2)

/-- `open(p, "w"); write(c)`: (over)write the file at `p` with content `c`. -/
def FS.write (fs : FS) (p c : String) : FS :=
  ⟨(p, c) :: fs.files.filter (fun e => !(e.1 == p))⟩

/-- `p.unlink()`: remove the file at `p`. -/
def FS.erase (fs : FS) (p : String) : FS :=
  ⟨fs.files.filter (fun e => !(e.1 == p))⟩

/-- `src.rename(dst)`: move the file at `src` onto `dst` (no-op when `src`
is absent, where Python would raise). -/
def FS.rename (fs : FS) (src dst : String) : FS :=
  match fs.read? src with
  | none => fs
  | some c => (fs.erase src).write dst c

theorem find?_filter_ne (l : List (String × String)) (p q : String) (hpq : q ≠ p) :
    (l.filter (fun e => !(e.1 == p))).find? (fun e => e.1 == q) =
      l.find? (fun e => e.1 == q) := by
  induction l with
  | nil => rfl
  | cons hd tl ih =>
    rw [List.filter_cons]
    by_cases hp : hd.1 = p
    · have h2 : (hd.1 == q) = false := by
        refine beq_eq_false_iff_ne.mpr ?_
        rw [hp]
        exact fun he => hpq he.symm
      rw [if_neg (by simp [hp]), ih, List.find?_cons_of_neg _ (by simp [h2])]
    · rw [if_pos (by simp [hp])]
      by_cases hq : hd.1 = q
      · rw [List.find?_cons_of_pos _ (by simp [hq]), List.find?_cons_of_pos _ (by simp [hq])]
      · rw [List.find?_cons_of_neg _ (by simp [hq]), List.find?_cons_of_neg _ (by simp [hq]), ih]

theorem FS.read_write_self (fs : FS) (p c : String) :
    (fs.write p c).read? p = some c := by
  simp [FS.write, FS.read?, List.find?]

theorem FS.read_write_other (fs : FS) (p c q : String) (h : q ≠ p) :
    (fs.write p c).read? q = fs.read? q := by
  have hp : (p == q) = false := by
    refine beq_eq_false_iff_ne.mpr fun he => h he.symm
  simp only [FS.write, FS.read?]
  rw [List.find?_cons_of_neg _ (by simp at hp ⊢; exact hp), find?_filter_ne fs.files p q h]

theorem FS.read_erase_self (fs : FS) (p : String) :
    (fs.erase p).read? p = none := by
  simp only [FS.erase, FS.read?]
  induction fs.files with
  | nil => rfl
  | cons hd tl ih =>
    rw [List.filter_cons]
    by_cases hp : hd.1 = p
    · rw [if_neg (by simp [hp])]
      exact ih
    · rw [if_pos (by simp [hp]), List.find?_cons_of_neg _ (by simp [hp])]
      exact ih

/-- A filesystem event performed by a call, in order. -/
inductive FsEvent where
  | fwrite (path content : String)
  | frename (src dst : String)
deriving Repr, DecidableEq

/-- What `urllib.request.urlopen` produced for the manifest request:
either a response (status, body, optional `ETag` header) or a raised
`HTTPError` with a status code. -/
inductive UrlResult where
  | success (status : Nat) (body : String) (etagHeader : Option String)
  | httpError (code : Nat)
deriving Repr, DecidableEq

/-- Embeds `download_with_etag` (animmuf.py lines 83-108).  Reading the
stored etag only shapes the request header, which is subsumed in `resp`;
the state change and return value follow the source: a 304 (status or
`HTTPError`) returns `False` untouched; otherwise the body is written
directly to `filename`, and only when the response carries an `ETag`
header is the etag file written and `True` returned — the fall-through
at line 108 returns `False`.  The second component records the
filesystem events the call performed, in order. -/
def download_with_etag (filename : String) (resp : UrlResult) (fs : FS) :
    Except Nat (FS × List FsEvent × Bool) :=
  let etag_file := withSuffixEtag filename
  match resp with
  | .success status body etagHeader =>
    if status = 304 then .ok (fs, [], false)
    else
      let fs1 := fs.write filename body
      match etagHeader with
      | some e =>
        .ok (fs1.write etag_file e, [.fwrite filename body, .fwrite etag_file e], true)
      | none => .ok (fs1, [.fwrite filename body], false)
  | .httpError code =>
    if code = 304 then .ok (fs, [], false) else .error code

/-- C1 counterexample: a successful (status 200) manifest response that
carries no `ETag` header rewrites the cache file yet the function
returns `False` (Unchanged), and no change token is stored — refuting
"whenever the cache file was rewritten the function returns Changed". -/
theorem C1_counterexample :
    download_with_etag "muf.json" (.success 200 "[]" none) ⟨[]⟩ =
      .ok (⟨[("muf.json", "[]")]⟩, [.fwrite "muf.json" "[]"], false) := by
  rfl

/-- C1 (amended): on every successful (non-304) manifest response the
cache file is overwritten in place — a direct write to the final path,
no rename event occurs — and the new change token is stored and `True`
returned exactly when the response carries an `ETag` header; when the
header is absent the cache is still rewritten but `False` is returned
and the stored token is left untouched. -/
theorem C1_success_behavior (filename body : String) (status : Nat)
    (etg : Option String) (fs : FS) (h : status ≠ 304)
    (hne : withSuffixEtag filename ≠ filename) :
    ∃ fs1 evs chg,
      download_with_etag filename (.success status body etg) fs = .ok (fs1, evs, chg) ∧
      fs1.read? filename = some body ∧
      (∀ e ∈ evs, ∀ s d, e ≠ FsEvent.frename s d) ∧
      (chg = true ↔ etg.isSome) ∧
      fs1.read? (withSuffixEtag filename) =
        (match etg with
         | some e => some e
         | none => fs.read? (withSuffixEtag filename)) := by
  cases etg with
  | some e =>
    refine ⟨(fs.write filename body).write (withSuffixEtag filename) e,
      [.fwrite filename body, .fwrite (withSuffixEtag filename) e], true, ?_, ?_, ?_, ?_, ?_⟩
    · simp [download_with_etag, h]
    · rw [FS.read_write_other _ _ _ _ (Ne.symm hne), FS.read_write_self]
    · intro ev hev s d
      simp only [List.mem_cons, List.mem_singleton, List.not_mem_nil, or_false] at hev
      rcases hev with h1 | h1 <;> simp [h1]
    · simp
    · simp [FS.read_write_self]
  | none =>
    refine ⟨fs.write filename body, [.fwrite filename body], false, ?_, ?_, ?_, ?_, ?_⟩
    · simp [download_with_etag, h]
    · exact FS.read_write_self fs filename body
    · intro ev hev s d
      simp only [List.mem_singleton] at hev
      simp [hev]
    · simp
    · exact FS.read_write_other fs filename body _ hne

/-- C1 witness: the amended statement at a concrete 200 response carrying
an `ETag` header. -/
theorem C1_witness :
    ∃ fs1 evs chg,
      download_with_etag "muf.json" (.success 200 "[]" (some "W-x")) ⟨[]⟩ =
        .ok (fs1, evs, chg) ∧
      fs1.read? "muf.json" = some "[]" ∧
      (∀ e ∈ evs, ∀ s d, e ≠ FsEvent.frename s d) ∧
      (chg = true ↔ (some "W-x").isSome) ∧
      fs1.read? (withSuffixEtag "muf.json") =
        (match (some "W-x" : Option String) with
         | some e => some e
         | none => FS.read? ⟨[]⟩ (withSuffixEtag "muf.json")) :=
  C1_success_behavior "muf.json" "[]" 200 (some "W-x") ⟨[]⟩ (by decide) (by decide)

/-- C7: a "not modified" answer — either a 304 status or a raised
`HTTPError` with code 304 — makes `download_with_etag` return `False`
with the filesystem untouched and no write event performed: neither the
cached manifest nor the change-token file is written. -/
theorem C7_not_modified (filename body : String) (etg : Option String) (fs : FS) :
    download_with_etag filename (.success 304 body etg) fs = .ok (fs, [], false) ∧
    download_with_etag filename (.httpError 304) fs = .ok (fs, [], false) := by
  constructor
  · simp [download_with_etag]
  · simp [download_with_etag]

/-- Embeds `retrieve_image` (animmuf.py lines 124-129) for one manifest
entry.  `files` is the set of names present in the target directory,
`dl` says whether `urllib.request.urlretrieve` succeeds for a given
source path; on failure that call raises, which `retrieve_image` does
not catch.  Returns the updated directory together with the number of
`urlretrieve` calls performed (0 when the target name already exists). -/
def retrieve_image (dl : String → Bool) (source_path : String) (files : List String) :
    Except String (List String × Nat) :=
  let target_name := pathName source_path
  if target_name ∈ files then .ok (files, 0)
  else if dl source_path then .ok (files ++ [target_name], 1)
  else .error source_path

/-- The `for url in data_source` loop of `retrieve_files` (animmuf.py
lines 119-120): calls `retrieve_image` on each entry in order; an
exception aborts the loop.  The first component lists the entries that
were actually attempted, in order; the second is the loop's outcome,
with the final directory and the total number of downloads performed. -/
def retrieve_loop (dl : String → Bool) (urls files : List String) :
    List String × Except String (List String × Nat) :=
  match urls with
  | [] => ([], .ok (files, 0))
  | u :: rest =>
    match retrieve_image dl u files with
    | .error e => ([u], .error e)
    | .ok (files1, n) =>
      let r := retrieve_loop dl rest files1
      (u :: r.1,
        match r.2 with
        | .error e => .error e
        | .ok (files2, m) => .ok (files2, n + m))

/-- Embeds `retrieve_files` (animmuf.py lines 111-121).  `changed` is
what `download_with_etag` returned for the manifest; on `False` the
function returns `False` at once.  Otherwise the downloaded manifest is
processed entry by entry.  The Python function returns only the boolean
(last component); the directory and the download count are carried as
instrumentation. -/
def retrieve_files (changed : Bool) (dl : String → Bool) (manifest files : List String) :
    Except String (List String × Nat × Bool) :=
  if changed = false then .ok (files, 0, false)
  else
    match (retrieve_loop dl manifest files).2 with
    | .error e => .error e
    | .ok (files1, n) => .ok (files1, n, true)

theorem retrieve_loop_all_present (dl : String → Bool) (urls files : List String)
    (h : ∀ u ∈ urls, pathName u ∈ files) :
    retrieve_loop dl urls files = (urls, .ok (files, 0)) := by
  induction urls with
  | nil => rfl
  | cons u rest ih =>
    have hu : pathName u ∈ files := h u (List.mem_cons_self u rest)
    have hrest : ∀ v ∈ rest, pathName v ∈ files :=
      fun v hv => h v (List.mem_cons_of_mem u hv)
    simp [retrieve_loop, retrieve_image, hu, ih hrest]

theorem retrieve_loop_success (urls : List String) : ∀ files : List String,
    ∃ files1 n,
      (retrieve_loop (fun _ => true) urls files).2 = .ok (files1, n) ∧
      (∀ u ∈ urls, pathName u ∈ files1) ∧
      (∀ x ∈ files, x ∈ files1) := by
  induction urls with
  | nil =>
    intro files
    exact ⟨files, 0, rfl, by simp, fun x hx => hx⟩
  | cons u rest ih =>
    intro files
    by_cases hu : pathName u ∈ files
    · obtain ⟨files1, n, h1, h2, h3⟩ := ih files
      refine ⟨files1, 0 + n, ?_, ?_, h3⟩
      · simp [retrieve_loop, retrieve_image, hu, h1]
      · intro v hv
        rcases List.mem_cons.mp hv with h | h
        · exact h ▸ h3 _ hu
        · exact h2 v h
    · obtain ⟨files1, n, h1, h2, h3⟩ := ih (files ++ [pathName u])
      refine ⟨files1, 1 + n, ?_, ?_, fun x hx => h3 x (List.mem_append_left _ hx)⟩
      · simp [retrieve_loop, retrieve_image, hu, h1]
      · intro v hv
        rcases List.mem_cons.mp hv with h | h
        · exact h ▸ h3 _ (List.mem_append_right _ (List.mem_singleton.mpr rfl))
        · exact h2 v h

/-- C2 counterexample: with a changed manifest whose single entry is
already present locally, `retrieve_files` performs zero downloads yet
returns `True` — the return value is the manifest-changed flag, not the
count of newly fetched images, so the "zero when nothing was newly
downloaded" reading is false. -/
theorem C2_counterexample :
    retrieve_files true (fun _ => true)
        ["/images/animations/ctipe/CTIPe-MUF_20240101.png"]
        ["CTIPe-MUF_20240101.png"] =
      .ok (["CTIPe-MUF_20240101.png"], 0, true) := by
  rfl

/-- C2 (amended): `retrieve_files` returns a boolean, not a count: it
returns `False` (and downloads nothing) when the manifest is unchanged,
and returns `True` whenever a new manifest was processed — even when
every entry already exists locally and zero images were newly fetched. -/
theorem C2_changed_flag (dl : String → Bool) (manifest files : List String)
    (h : ∀ u ∈ manifest, pathName u ∈ files) :
    retrieve_files true dl manifest files = .ok (files, 0, true) ∧
    retrieve_files false dl manifest files = .ok (files, 0, false) := by
  constructor
  · simp [retrieve_files, retrieve_loop_all_present dl manifest files h]
  · simp [retrieve_files]

/-- C2 witness: the amended statement at a concrete one-entry manifest
whose image is already on disk. -/
theorem C2_witness :
    retrieve_files true (fun _ => false) ["/img/CTIPe-MUF_a.png"] ["CTIPe-MUF_a.png"] =
        .ok (["CTIPe-MUF_a.png"], 0, true) ∧
    retrieve_files false (fun _ => false) ["/img/CTIPe-MUF_a.png"] ["CTIPe-MUF_a.png"] =
        .ok (["CTIPe-MUF_a.png"], 0, false) :=
  C2_changed_flag (fun _ => false) ["/img/CTIPe-MUF_a.png"] ["CTIPe-MUF_a.png"]
    (by intro u hu; simp at hu; subst hu; decide)

/-- C3 counterexample: with two manifest entries where the first
download fails, the loop attempts only the first entry and aborts with
the raised error — the second entry is never attempted, refuting "all
later entries are still attempted". -/
theorem C3_counterexample :
    retrieve_loop (fun u => u != "/img/CTIPe-MUF_A.png")
        ["/img/CTIPe-MUF_A.png", "/img/CTIPe-MUF_B.png"] [] =
      (["/img/CTIPe-MUF_A.png"], .error "/img/CTIPe-MUF_A.png") := by
  rfl

theorem retrieve_loop_error_ne_nil (dl : String → Bool) (urls files : List String)
    (u : String) (h : (retrieve_loop dl urls files).2 = .error u) :
    (retrieve_loop dl urls files).1 ≠ [] := by
  cases urls with
  | nil => simp [retrieve_loop] at h
  | cons v rest =>
    simp only [retrieve_loop]
    cases hv : retrieve_image dl v files with
    | error e => simp
    | ok p => simp

/-- C3 (amended): `retrieve_image` has no per-entry error handling, so a
download failure raises out of the loop in `retrieve_files` and aborts
it: when the loop ends in an error, the attempted entries form a strict
prefix of the manifest ending at the failing entry, and every entry
after it goes unattempted. -/
theorem C3_failure_aborts (dl : String → Bool) (urls files : List String) (u : String)
    (h : (retrieve_loop dl urls files).2 = .error u) :
    ∃ rest, urls = (retrieve_loop dl urls files).1 ++ rest ∧
      ((retrieve_loop dl urls files).1).getLast? = some u := by
  induction urls generalizing files with
  | nil => simp [retrieve_loop] at h
  | cons v tail ih =>
    cases hv : retrieve_image dl v files with
    | error e =>
      have hev : e = v := by
        unfold retrieve_image at hv
        by_cases h1 : pathName v ∈ files
        · simp [h1] at hv
        · by_cases h2 : dl v
          · simp [h1, h2] at hv
          · simp [h1, h2] at hv
            exact hv.symm
      subst hev
      have hloop : retrieve_loop dl (e :: tail) files = ([e], .error e) := by
        simp [retrieve_loop, hv]
      rw [hloop] at h ⊢
      simp only at h
      injection h with h
      subst h
      exact ⟨tail, rfl, rfl⟩
    | ok p =>
      obtain ⟨files1, n⟩ := p
      have hloop : retrieve_loop dl (v :: tail) files =
          (v :: (retrieve_loop dl tail files1).1,
            match (retrieve_loop dl tail files1).2 with
            | .error e => .error e
            | .ok (files2, m) => .ok (files2, n + m)) := by
        simp [retrieve_loop, hv]
      rw [hloop] at h ⊢
      simp only at h
      have htail : (retrieve_loop dl tail files1).2 = .error u := by
        cases hr : (retrieve_loop dl tail files1).2 with
        | error e =>
          rw [hr] at h
          simp only at h
          injection h with h
          rw [h]
        | ok q =>
          obtain ⟨q1, q2⟩ := q
          rw [hr] at h
          simp at h
      obtain ⟨rest, hrest, hlast⟩ := ih files1 htail
      refine ⟨rest, ?_, ?_⟩
      · simp only [List.cons_append]
        exact congrArg (v :: ·) hrest
      · have hne := retrieve_loop_error_ne_nil dl tail files1 u htail
        cases hl : (retrieve_loop dl tail files1).1 with
        | nil => exact absurd hl hne
        | cons b l =>
          rw [hl] at hlast
          show (v :: b :: l).getLast? = some u
          rw [List.getLast?_cons_cons]
          exact hlast

/-- C3 witness: the amended statement at the concrete failing input. -/
theorem C3_witness :
    ∃ rest, ["/i/CTIPe-MUF_A.png", "/i/CTIPe-MUF_B.png"] =
        (retrieve_loop (fun _ => false)
          ["/i/CTIPe-MUF_A.png", "/i/CTIPe-MUF_B.png"] []).1 ++ rest ∧
      ((retrieve_loop (fun _ => false)
          ["/i/CTIPe-MUF_A.png", "/i/CTIPe-MUF_B.png"] []).1).getLast? =
        some "/i/CTIPe-MUF_A.png" :=
  C3_failure_aborts (fun _ => false) ["/i/CTIPe-MUF_A.png", "/i/CTIPe-MUF_B.png"] []
    "/i/CTIPe-MUF_A.png" (by rfl)

/-- C5: the synchronization loop is idempotent.  A first run in which
every `urlretrieve` succeeds leaves a directory containing every
manifest entry's basename; a second run over that directory with the
same manifest attempts every entry, performs zero downloads, and leaves
the directory unchanged, because each entry's canonical local filename
already exists and is skipped. -/
theorem C5_idempotent (manifest files : List String) (dl : String → Bool) :
    ∃ files1 n,
      (retrieve_loop (fun _ => true) manifest files).2 = .ok (files1, n) ∧
      retrieve_loop dl manifest files1 = (manifest, .ok (files1, 0)) := by
  obtain ⟨files1, n, h1, h2, _⟩ := retrieve_loop_success manifest files
  exact ⟨files1, n, h1, retrieve_loop_all_present dl manifest files1 h2⟩

/-- Kernel-computable prefix test on character lists. -/
def pfxList : List Char → List Char → Bool
  | [], _ => true
  | _ :: _, [] => false
  | a :: as, b :: bs => a == b && pfxList as bs

/-- The canonical naming convention: `target_dir.glob('CTIPe-MUF_*')`
matches exactly the files whose name starts with this string. -/
def isMufName (f : String) : Bool :=
  pfxList "CTIPe-MUF_".data f.data

/-- Embeds `cleanup` (animmuf.py lines 132-147): collect the basenames
listed in the manifest, then delete every file matching the glob
`CTIPe-MUF_*` whose name is not among them (deletions modelled as
always succeeding, matching the claim's no-deletion-error assumption).
`files` holds the names in the target directory; the result is what
survives the pass. -/
def cleanup (manifest files : List String) : List String :=
  let current_files := manifest.map pathName
  files.filter (fun f => !(isMufName f) || current_files.contains f)

/-- C4: after a retention pass, every surviving file matching the
`CTIPe-MUF_*` prefix has its name among the manifest's basenames (no
orphans), and every file outside that prefix survives untouched. -/
theorem C4_retention (manifest files : List String) (f : String) :
    (f ∈ cleanup manifest files → isMufName f = true → f ∈ manifest.map pathName) ∧
    (f ∈ files → isMufName f = false → f ∈ cleanup manifest files) := by
  constructor
  · intro hmem hmuf
    obtain ⟨-, hp⟩ := List.mem_filter.mp hmem
    rw [hmuf] at hp
    simp only [Bool.not_true, Bool.false_or] at hp
    exact List.elem_iff.mp hp
  · intro hmem hmuf
    refine List.mem_filter.mpr ⟨hmem, ?_⟩
    rw [hmuf]
    simp

/-- C4 witness: a concrete pass keeps the manifest-listed image, drops
the stale one, and leaves the unrelated file alone. -/
theorem C4_witness :
    "CTIPe-MUF_a.png" ∈ (["/i/CTIPe-MUF_a.png"].map pathName) ∧
    "notes.txt" ∈ cleanup ["/i/CTIPe-MUF_a.png"]
        ["CTIPe-MUF_a.png", "CTIPe-MUF_b.png", "notes.txt"] :=
  ⟨(C4_retention ["/i/CTIPe-MUF_a.png"]
      ["CTIPe-MUF_a.png", "CTIPe-MUF_b.png", "notes.txt"] "CTIPe-MUF_a.png").1
      (by decide) (by decide),
   (C4_retention ["/i/CTIPe-MUF_a.png"]
      ["CTIPe-MUF_a.png", "CTIPe-MUF_b.png", "notes.txt"] "notes.txt").2
      (by decide) (by decide)⟩

/-- A filesystem with directories, for the scratch-workspace model:
`dirs` are the directories present, `files` the file paths present. -/
structure WFS where
  dirs : List String
  files : List String
deriving Repr, DecidableEq

/-- Is path `p` strictly inside directory `wd`? -/
def underDir (wd p : String) : Bool :=
  pfxList (wd ++ "/").data p.data

/-- `shutil.rmtree(wd)` (animmuf.py line 58): remove the directory, its
subdirectories and every file under it. -/
def rmtree (wd : String) (fs : WFS) : WFS :=
  ⟨fs.dirs.filter (fun d => !(d == wd) && !(underDir wd d)),
   fs.files.filter (fun f => !(underDir wd f))⟩

/-- Embeds the `Workdir` context manager (animmuf.py lines 44-58) as
Python's `with` statement runs it: `__enter__` does `mkdir`, which
raises when the directory already exists (then the scope is never
entered, result `none`); otherwise the body runs — returning a final
state and optionally a raised exception — and `__exit__` runs
`shutil.rmtree` on the workdir unconditionally, after which any body
exception propagates (carried in the second component). -/
def workdir_scope (target : String) (body : WFS → WFS × Option String) (fs : WFS) :
    Option (WFS × Option String) :=
  let wd := target ++ "/_workdir"
  if wd ∈ fs.dirs then none
  else
    let r := body ⟨wd :: fs.dirs, fs.files⟩
    some (rmtree wd r.1, r.2)

/-- C6: whenever the `Workdir` scope is entered, the workspace directory
is absent from the final state — and so is every file under it —
whether the body finished normally (`exc = none`) or raised
(`exc = some e`): the removal in `__exit__` is unconditional. -/
theorem C6_workdir_removed (target : String) (body : WFS → WFS × Option String)
    (fs fs1 : WFS) (exc : Option String)
    (h : workdir_scope target body fs = some (fs1, exc)) :
    (target ++ "/_workdir") ∉ fs1.dirs ∧
    ∀ f ∈ fs1.files, underDir (target ++ "/_workdir") f = false := by
  unfold workdir_scope at h
  by_cases hin : (target ++ "/_workdir") ∈ fs.dirs
  · simp [hin] at h
  · simp only [hin, if_neg, ite_false] at h
    injection h with h
    have hfs : fs1 = rmtree (target ++ "/_workdir") (body ⟨(target ++ "/_workdir") :: fs.dirs, fs.files⟩).1 := by
      have := congrArg Prod.fst h
      exact this.symm
    subst hfs
    constructor
    · intro hmem
      obtain ⟨-, hp⟩ := List.mem_filter.mp hmem
      simp at hp
    · intro f hf
      obtain ⟨-, hp⟩ := List.mem_filter.mp hf
      simpa using hp

/-- C6 witness: a body that raises (`some "IOError"`) still ends with the
workspace gone. -/
theorem C6_witness :
    ("/data" ++ "/_workdir") ∉ (WFS.mk [] []).dirs ∧
    ∀ f ∈ (WFS.mk [] []).files, underDir ("/data" ++ "/_workdir") f = false :=
  C6_workdir_removed "/data" (fun s => (s, some "IOError")) ⟨[], []⟩ ⟨[], []⟩
    (some "IOError") (by rfl)

/-- Embeds `gen_video` (animmuf.py lines 186-212).  When `ffmpeg` is not
on the path a `FileNotFoundError` is raised.  Otherwise the encoder
subprocess runs, writing its output `tmp_out` (if any) to the temporary
file inside the workdir, and exits with `returncode`; on a non-zero
exit the function logs and returns, and only on a zero exit is the
temporary file renamed onto the published `video_file`. -/
def gen_video (ffmpeg_found : Bool) (video_file tmp_file : String)
    (tmp_out : Option String) (returncode : Int) (fs : FS) : Except String FS :=
  if ffmpeg_found = false then .error "ffmpeg not found"
  else
    let fs1 := match tmp_out with
      | some c => fs.write tmp_file c
      | none => fs
    if returncode ≠ 0 then .ok fs1
    else .ok (fs1.rename tmp_file video_file)

/-- C8: with the encoder available and its output written to the
temporary path, a non-zero exit leaves the published video file exactly
as it was before the call, while a zero exit renames the temporary
output onto the published path (which then holds the encoder output,
and the temporary file is gone). -/
theorem C8_publish (video_file tmp_file c : String) (rc : Int) (fs : FS)
    (hne : tmp_file ≠ video_file) :
    (rc ≠ 0 → ∃ fs1, gen_video true video_file tmp_file (some c) rc fs = .ok fs1 ∧
        fs1.read? video_file = fs.read? video_file) ∧
    (rc = 0 → ∃ fs1, gen_video true video_file tmp_file (some c) rc fs = .ok fs1 ∧
        fs1.read? video_file = some c ∧ fs1.read? tmp_file = none) := by
  constructor
  · intro hrc
    refine ⟨fs.write tmp_file c, ?_, ?_⟩
    · simp [gen_video, hrc]
    · exact FS.read_write_other fs tmp_file c video_file (Ne.symm hne)
  · intro hrc
    subst hrc
    refine ⟨((fs.write tmp_file c).erase tmp_file).write video_file c, ?_, ?_, ?_⟩
    · simp only [gen_video, Bool.true_eq_false, if_false, ne_eq, not_true_eq_false,
        ite_false, ite_true]
      have hr : (fs.write tmp_file c).rename tmp_file video_file =
          ((fs.write tmp_file c).erase tmp_file).write video_file c := by
        unfold FS.rename
        rw [FS.read_write_self]
      simp [hr]
    · exact FS.read_write_self _ video_file c
    · rw [FS.read_write_other _ _ _ _ hne]
      exact FS.read_erase_self _ tmp_file

/-- C8 witness: a concrete failing encoder run (exit 1) over a state that
already holds a published video, which is left as it was. -/
theorem C8_witness :
    ∃ fs1, gen_video true "muf.mp4" "wd/video-7.mp4" (some "NEW") 1
        ⟨[("muf.mp4", "OLD")]⟩ = .ok fs1 ∧
      fs1.read? "muf.mp4" = FS.read? ⟨[("muf.mp4", "OLD")]⟩ "muf.mp4" :=
  (C8_publish "muf.mp4" "wd/video-7.mp4" "NEW" 1 ⟨[("muf.mp4", "OLD")]⟩ (by decide)).1
    (by decide)

/-- The steps of `run` that complete, in order, recorded for the trace:
the thumbnail save, the retention pass (`cleanup`), the frame
composition (`select_files`), and the encoder call (`gen_video`). -/
inductive RunEvent where
  | thumbnail
  | cleanupStep
  | selectStep
  | videoStep
deriving Repr, DecidableEq

/-- An abnormal end of `run`: the uncaught `IndexError` raised by
`mk_thumbnail`'s `pop` on an empty list, a download error propagating
out of `retrieve_files`, or the `SystemExit` raised when the workdir
already exists (`IOError` caught at lines 253-255). -/
inductive RunError where
  | indexError
  | downloadError (u : String)
  | systemExit
deriving Repr, DecidableEq

def EX_OK : Nat := 0

def EX_IOERR : Nat := 74

/-- `target_dir.glob('CTIPe-MUF_*')`: the files matching the managed
prefix, used by `mk_thumbnail`, `cleanup` and `select_files`. -/
def glob_muf (files : List String) : List String :=
  files.filter isMufName

/-- The effect of `retrieve_files` (animmuf.py lines 111-121) on the
target directory as seen by `run`: when the manifest is unchanged
nothing is downloaded; otherwise the manifest's entries are fetched by
`retrieve_loop`, whose failure propagates. -/
def fetch_step (changed : Bool) (dl : String → Bool) (manifest files : List String) :
    Except String (List String) :=
  if changed = false then .ok files
  else
    match (retrieve_loop dl manifest files).2 with
    | .error e => .error e
    | .ok (files1, _) => .ok files1

/-- Embeds `run` (animmuf.py lines 234-256), leaf functions abstracted
to their directory-level effect.  A missing target directory returns
`EX_IOERR`; an unchanged manifest without `--force` returns `EX_OK`
early; then `mk_thumbnail` (lines 215-231) sorts the `CTIPe-MUF_*`
files and does `muf_files.pop()`, which raises `IndexError` on an empty
list — uncaught, since the only handler around the workdir block
catches `IOError`.  Otherwise `latest.png` is saved, `cleanup` runs,
and inside the `Workdir` scope `gen_video` runs only when
`select_files` returned more than one frame.  The result pairs the trace
of completed steps with the outcome: a normal exit code or the raised
error. -/
def run (force changed : Bool) (dl : String → Bool) (manifest target_files : List String)
    (dir_exists workdir_present : Bool) : List RunEvent × Except RunError Nat :=
  if dir_exists = false then ([], .ok EX_IOERR)
  else
    match fetch_step changed dl manifest target_files with
    | .error u => ([], .error (.downloadError u))
    | .ok files1 =>
      if changed = false && force = false then ([], .ok EX_OK)
      else if glob_muf files1 = [] then ([], .error .indexError)
      else
        let files2 := if "latest.png" ∈ files1 then files1 else files1 ++ ["latest.png"]
        let files3 := cleanup manifest files2
        if workdir_present then ([.thumbnail, .cleanupStep], .error .systemExit)
        else if 1 < (glob_muf files3).length then
          ([.thumbnail, .cleanupStep, .selectStep, .videoStep], .ok EX_OK)
        else ([.thumbnail, .cleanupStep, .selectStep], .ok EX_OK)

/-- C10: when a run proceeds past the fetch (new data, or `--force`) but
the target directory holds no `CTIPe-MUF_*` file, `run` ends in the
uncaught `IndexError` from `mk_thumbnail` with an empty trace: retention,
frame composition and rendering never happen, and no exit status is
returned. -/
theorem C10_thumbnail_crash (force changed : Bool) (dl : String → Bool)
    (manifest target_files files1 : List String)
    (hfetch : fetch_step changed dl manifest target_files = .ok files1)
    (hproc : changed = true ∨ force = true)
    (hempty : glob_muf files1 = []) :
    run force changed dl manifest target_files true false = ([], .error .indexError) := by
  simp [run, hfetch, hempty]
  intro hc
  rcases hproc with h | h
  · rw [hc] at h
    exact absurd h (by decide)
  · exact h

/-- C10 witness: a forced run over an empty target directory. -/
theorem C10_witness :
    run true false (fun _ => true) ["/i/CTIPe-MUF_x.png"] ["notes.txt"] true false =
      ([], .error .indexError) :=
  C10_thumbnail_crash true false (fun _ => true) ["/i/CTIPe-MUF_x.png"] ["notes.txt"]
    ["notes.txt"] (by rfl) (Or.inr rfl) (by rfl)

/-- C9 counterexample: a forced run with a retained image set of size 0
(an empty target directory) does not terminate successfully — it ends in
the uncaught `IndexError` — refuting "the run still terminates
successfully" for the size-0 half of the claim. -/
theorem C9_counterexample :
    run true false (fun _ => true) [] [] true false = ([], .error .indexError) := by
  rfl

/-- C9 (amended): when the run proceeds past the fetch, at least one
`CTIPe-MUF_*` file is present when the thumbnail is made, and at most one
remains after retention, the render step is skipped — the trace ends at
frame composition with no `videoStep` — and the run returns `EX_OK`;
with zero such files the run instead dies in `mk_thumbnail`. -/
theorem C9_skip_render (force changed : Bool) (dl : String → Bool)
    (manifest target_files files1 : List String)
    (hfetch : fetch_step changed dl manifest target_files = .ok files1)
    (hproc : changed = true ∨ force = true)
    (hsome : glob_muf files1 ≠ [])
    (hcount : (glob_muf (cleanup manifest
        (if "latest.png" ∈ files1 then files1 else files1 ++ ["latest.png"]))).length ≤ 1) :
    run force changed dl manifest target_files true false =
      ([.thumbnail, .cleanupStep, .selectStep], .ok EX_OK) := by
  have hlt : ¬ (1 < (glob_muf (cleanup manifest
      (if "latest.png" ∈ files1 then files1 else files1 ++ ["latest.png"]))).length) := by
    omega
  simp [run, hfetch, hsome, hlt]
  intro hc
  rcases hproc with h | h
  · rw [hc] at h
    exact absurd h (by decide)
  · exact h

/-- C9 witness: a forced run whose single retained image survives
retention: no render, exit `EX_OK`. -/
theorem C9_witness :
    run true false (fun _ => true) ["/i/CTIPe-MUF_a.png"] ["CTIPe-MUF_a.png"] true false =
      ([.thumbnail, .cleanupStep, .selectStep], .ok EX_OK) :=
  C9_skip_render true false (fun _ => true) ["/i/CTIPe-MUF_a.png"] ["CTIPe-MUF_a.png"]
    ["CTIPe-MUF_a.png"] (by rfl) (Or.inr rfl) (by decide) (by decide)

end AnimMUF
